import Mathlib

/-!
Verification of the resilient retry wrapper and result-aggregation logic of
`app.py` (class `SafeDuckDuckGoSearch._run`, lines 31-52, and the manual
aggregation block, lines 96-109).

The wrapped lookup (`super()._run`) is an opaque external call: we model its
behaviour as a function from the query and the 0-based attempt index to
either a returned payload or a raised exception's message string
(`str(e)`).  The wrapper itself is embedded as a pure function producing a
trace: the returned string, the ordered list of backoff sleep durations,
and the number of invocations of the underlying lookup.  The float literal
`1.5` of the source is represented exactly as the rational `3/2`.
-/

namespace App

/-- Outcome of one invocation of the wrapped lookup `super()._run`:
either it returns a payload string or it raises an exception whose
message text (`str(e)`) is recorded. -/
inductive Attempt where
  | ok (payload : String)
  | err (msg : String)
deriving DecidableEq, Repr

/-- Observable trace of a single call to `SafeDuckDuckGoSearch._run`:
the string it returns, the list of sleep durations (seconds) performed in
order, and how many times the underlying lookup was invoked. -/
structure RunTrace where
  result : String
  sleeps : List ℚ
  calls : Nat
deriving DecidableEq, Repr

/-- Python membership test `pat in s` on lists of characters: does `pat`
occur as a contiguous substring (here: prefix check at each position)? -/
def listPrefixOf : List Char → List Char → Bool
  | [], _ => true
  | _ :: _, [] => false
  | a :: as, b :: bs => a == b && listPrefixOf as bs

/-- Whether `pat` occurs as a contiguous sublist of the second argument. -/
def listInfixOf (pat : List Char) : List Char → Bool
  | [] => pat.isEmpty
  | b :: bs => listPrefixOf pat (b :: bs) || listInfixOf pat bs

/-- Python `pat in s` for strings: `pat` occurs as a substring of `s`. -/
def strContains (s pat : String) : Bool :=
  listInfixOf pat.data s.data

/-- Python `str.lower()`, modelled characterwise by ASCII case folding
(the markers and the tag word `"failed"` are ASCII, so this agrees with
Python for all inputs relevant to classification). -/
def strLower (s : String) : String :=
  ⟨s.data.map Char.toLower⟩

/-- Source line 33: `attempts = 4`. -/
def attempts : Nat := 4

/-- Source line 34: `base_wait = 1.5`, represented exactly as `3/2 : ℚ`. -/
def base_wait : ℚ := 3 / 2

/-- Source lines 41-43: `text = str(e).lower()` and the transient test
`"ratelimit" in text or "202" in text or "rate limit" in text`. -/
def isTransient (msg : String) : Bool :=
  strContains (strLower msg) "ratelimit" || strContains (strLower msg) "202" ||
    strContains (strLower msg) "rate limit"

/-- Rendering of the Python variable `last_exc : Optional[Exception]`
inside an f-string: `None` prints as `"None"`, an exception prints as its
message text. -/
def excStr : Option String → String
  | none => "None"
  | some m => m

/-- Source line 50: the friendly message returned on a non-transient error. -/
def errReturn (m : String) : String :=
  "⚠️ DuckDuckGo error: " ++ m

/-- Source line 52: the fallback string returned after exhausting retries. -/
def exhaustReturn (last : Option String) : String :=
  "❌ DuckDuckGo unavailable after retries. Last error: " ++ excStr last

/-- The retry loop of `SafeDuckDuckGoSearch._run` (source lines 36-52).
`lookup` gives the behaviour of `super()._run` at each absolute attempt
index, `i` is the current value of the loop variable, `fuel` the number of
loop iterations remaining, and `last` the current `last_exc`.  Each
iteration calls the lookup; on success the payload is returned; on an
error whose text is transient the wrapper sleeps `base_wait * 2^i` and
continues (also when `i` is the final index); on any other error it
returns the friendly error string at once.  When the loop ends, the
fallback string is returned. -/
def runAux (lookup : Nat → Attempt) : Nat → Nat → Option String → RunTrace
  | _, 0, last => ⟨exhaustReturn last, [], 0⟩
  | i, fuel + 1, _ =>
    match lookup i with
    | .ok payload => ⟨payload, [], 1⟩
    | .err m =>
      if isTransient m then
        let wait := base_wait * 2 ^ i
        let rest := runAux lookup (i + 1) fuel (some m)
        ⟨rest.result, wait :: rest.sleeps, rest.calls + 1⟩
      else
        ⟨errReturn m, [], 1⟩

/-- `SafeDuckDuckGoSearch._run` on a query, given the behaviour of the
wrapped lookup as a function of the query and the attempt index. -/
def SafeRun (superRun : String → Nat → Attempt) (query : String) : RunTrace :=
  runAux (superRun query) 0 attempts none

/-- Two successive independent invocations of the wrapper on the same
query: the class carries no mutable state between calls (`attempts`,
`base_wait`, `last_exc` and `i` are all local to one `_run` call), so the
second call starts from the same initial state as the first. -/
def SafeRunTwice (superRun : String → Nat → Attempt) (query : String) :
    RunTrace × RunTrace :=
  (SafeRun superRun query, SafeRun superRun query)

/-- Source lines 98-103: a tool output is kept when it is truthy
(non-empty) and its lowercase text does not contain `"failed"`. -/
def keepPart (s : String) : Bool :=
  !s.isEmpty && !(strContains (strLower s) "failed")

/-- Source lines 97-103: the `parts` list built from the three raw tool
outputs, each kept section tagged and stripped. -/
def partsOf (wiki arxiv web : String) : List String :=
  (if keepPart wiki then ["WIKIPEDIA RESULT:\n" ++ wiki.trim] else []) ++
  (if keepPart arxiv then ["ARXIV RESULT:\n" ++ arxiv.trim] else []) ++
  (if keepPart web then ["WEB RESULT:\n" ++ web.trim] else [])

/-- Source lines 105-109: the aggregated text shown to the summarizer. -/
def aggregatedOf (wiki arxiv web : String) : String :=
  let parts := partsOf wiki arxiv web
  if parts.isEmpty then
    "No external results available (all tools failed or returned no results)."
  else
    String.intercalate "\n\n---\n\n" parts

/-- Spec-side transient classification, phrased as in the specification:
the error message, compared case-insensitively, contains at least one of
the substrings `"rate limit"`, `"ratelimit"`, `"202"`. -/
def specTransient (msg : String) : Prop :=
  strContains (strLower msg) "rate limit" = true ∨
  strContains (strLower msg) "ratelimit" = true ∨
  strContains (strLower msg) "202" = true

instance (msg : String) : Decidable (specTransient msg) := by
  unfold specTransient; infer_instance

/-! Basic lemmas about the substring test. -/

lemma listPrefixOf_refl_append : ∀ (l s : List Char), listPrefixOf l (l ++ s) = true
  | [], _ => rfl
  | a :: as, s => by simp [listPrefixOf, listPrefixOf_refl_append as s]

lemma listPrefixOf_mono : ∀ (pat t s : List Char),
    listPrefixOf pat t = true → listPrefixOf pat (t ++ s) = true
  | [], _, _, _ => rfl
  | _ :: _, [], _, h => by simp [listPrefixOf] at h
  | a :: as, b :: bs, s, h => by
    simp only [listPrefixOf, Bool.and_eq_true] at h ⊢
    exact ⟨h.1, listPrefixOf_mono as bs s h.2⟩

lemma listInfixOf_nil_pat : ∀ s : List Char, listInfixOf [] s = true
  | [] => rfl
  | _ :: _ => by simp [listInfixOf, listPrefixOf]

lemma listInfixOf_suffix : ∀ (p pat : List Char), listInfixOf pat (p ++ pat) = true
  | [], [] => rfl
  | [], a :: as => by
    simp only [List.nil_append, listInfixOf]
    have := listPrefixOf_refl_append (a :: as) []
    rw [List.append_nil] at this
    simp [this]
  | b :: bs, pat => by
    simp only [List.cons_append, listInfixOf, Bool.or_eq_true]
    exact Or.inr (listInfixOf_suffix bs pat)

lemma listInfixOf_mono : ∀ (pat p s : List Char),
    listInfixOf pat p = true → listInfixOf pat (p ++ s) = true
  | pat, [], s, h => by
    simp only [listInfixOf, List.isEmpty_iff] at h
    subst h
    exact listInfixOf_nil_pat s
  | pat, b :: bs, s, h => by
    simp only [List.cons_append, listInfixOf, Bool.or_eq_true] at h ⊢
    rcases h with h | h
    · exact Or.inl (listPrefixOf_mono pat (b :: bs) s h)
    · exact Or.inr (listInfixOf_mono pat bs s h)

/-- A string always contains its own suffix: `pat in (p ++ pat)` holds. -/
lemma strContains_append_suffix (p pat : String) : strContains (p ++ pat) pat = true := by
  simp only [strContains, String.data_append]
  exact listInfixOf_suffix p.data pat.data

/-- Containment in the left part survives appending on the right. -/
lemma strContains_append_of_left {p pat : String} (s : String)
    (h : strContains p pat = true) : strContains (p ++ s) pat = true := by
  simp only [strContains, String.data_append] at h ⊢
  exact listInfixOf_mono pat.data p.data s.data h

/-! Step lemmas for the retry loop. -/

lemma runAux_ok {lookup : Nat → Attempt} {i : Nat} {p : String}
    (h : lookup i = .ok p) {fuel : Nat} (hf : fuel ≠ 0) (last : Option String) :
    runAux lookup i fuel last = ⟨p, [], 1⟩ := by
  cases fuel with
  | zero => exact absurd rfl hf
  | succ f => simp [runAux, h]

lemma runAux_fatal {lookup : Nat → Attempt} {i : Nat} {m : String}
    (h : lookup i = .err m) (hnt : isTransient m = false)
    {fuel : Nat} (hf : fuel ≠ 0) (last : Option String) :
    runAux lookup i fuel last = ⟨errReturn m, [], 1⟩ := by
  cases fuel with
  | zero => exact absurd rfl hf
  | succ f => simp [runAux, h, hnt]

lemma runAux_transient {lookup : Nat → Attempt} {i : Nat} {m : String}
    (h : lookup i = .err m) (ht : isTransient m = true)
    {fuel : Nat} (hf : fuel ≠ 0) (last : Option String) :
    runAux lookup i fuel last =
      ⟨(runAux lookup (i + 1) (fuel - 1) (some m)).result,
       base_wait * 2 ^ i :: (runAux lookup (i + 1) (fuel - 1) (some m)).sleeps,
       (runAux lookup (i + 1) (fuel - 1) (some m)).calls + 1⟩ := by
  cases fuel with
  | zero => exact absurd rfl hf
  | succ f => simp [runAux, h, ht]

/-! Bounds on the number of calls made by the retry loop. -/

lemma runAux_calls_le (lookup : Nat → Attempt) :
    ∀ (fuel i : Nat) (last : Option String), (runAux lookup i fuel last).calls ≤ fuel := by
  intro fuel
  induction fuel with
  | zero => intro i last; simp [runAux]
  | succ f ih =>
    intro i last
    rcases hl : lookup i with p | m
    · simp [runAux, hl]
    · by_cases ht : isTransient m
      · simp only [runAux, hl, ht, if_pos]
        have := ih (i + 1) (some m)
        omega
      · simp [runAux, hl, ht]

lemma runAux_calls_pos (lookup : Nat → Attempt) (fuel i : Nat) (last : Option String)
    (hf : fuel ≠ 0) : 1 ≤ (runAux lookup i fuel last).calls := by
  cases fuel with
  | zero => exact absurd rfl hf
  | succ f =>
    rcases hl : lookup i with p | m
    · simp [runAux, hl]
    · by_cases ht : isTransient m
      · simp only [runAux, hl, ht, if_pos]
        omega
      · simp [runAux, hl, ht]

/-- Every run returns one of the three documented strings: a payload that
the underlying lookup produced, the friendly non-transient error message,
or the exhaustion fallback. -/
lemma runAux_result_shape (lookup : Nat → Attempt) :
    ∀ (fuel i : Nat) (last : Option String),
      (∃ j p, lookup j = .ok p ∧ (runAux lookup i fuel last).result = p) ∨
      (∃ j m, lookup j = .err m ∧ (runAux lookup i fuel last).result = errReturn m) ∨
      (∃ l, (runAux lookup i fuel last).result = exhaustReturn l) := by
  intro fuel
  induction fuel with
  | zero => intro i last; exact Or.inr (Or.inr ⟨last, rfl⟩)
  | succ f ih =>
    intro i last
    rcases hl : lookup i with p | m
    · exact Or.inl ⟨i, p, hl, by simp [runAux, hl]⟩
    · by_cases ht : isTransient m
      · have hstep : (runAux lookup i (f + 1) last).result =
            (runAux lookup (i + 1) f (some m)).result := by
          simp [runAux, hl, ht]
        rw [hstep]
        exact ih (i + 1) (some m)
      · exact Or.inr (Or.inl ⟨i, m, hl, by simp [runAux, hl, ht]⟩)

/-- Full trace of a run in which all four attempts raise transient-marked
errors: four calls, four sleeps of `base_wait * 2^i` each (one also after
the final failed attempt), and the exhaustion fallback built from the last
error. -/
lemma SafeRun_allTransient (superRun : String → Nat → Attempt) (q : String) (m : Nat → String)
    (h : ∀ i, i < attempts → superRun q i = .err (m i) ∧ isTransient (m i) = true) :
    SafeRun superRun q =
      ⟨exhaustReturn (some (m 3)),
       [base_wait * 2 ^ 0, base_wait * 2 ^ 1, base_wait * 2 ^ 2, base_wait * 2 ^ 3],
       4⟩ := by
  have h0 := h 0 (by norm_num [attempts])
  have h1 := h 1 (by norm_num [attempts])
  have h2 := h 2 (by norm_num [attempts])
  have h3 := h 3 (by norm_num [attempts])
  show runAux (superRun q) 0 4 none = _
  rw [runAux_transient h0.1 h0.2 (by norm_num) none]
  norm_num
  rw [runAux_transient h1.1 h1.2 (by norm_num) (some (m 0))]
  norm_num
  rw [runAux_transient h2.1 h2.2 (by norm_num) (some (m 1))]
  norm_num
  rw [runAux_transient h3.1 h3.2 (by norm_num) (some (m 2))]
  norm_num [runAux]

/-- The backoff sleeps performed by attempts `i, i+1, ..., i+k-1` when all
of them fail transiently. -/
def sleepsFor (i k : Nat) : List ℚ :=
  (List.range k).map (fun j => base_wait * 2 ^ (i + j))

lemma sleepsFor_succ (i k : Nat) :
    sleepsFor i (k + 1) = base_wait * 2 ^ i :: sleepsFor (i + 1) k := by
  unfold sleepsFor
  rw [List.range_succ_eq_map, List.map_cons, List.map_map]
  refine congrArg₂ _ (by norm_num) ?_
  apply List.map_congr_left
  intro j _
  simp only [Function.comp_apply]
  congr 2
  omega

/-- If attempts `i, ..., i+k-1` fail transiently and attempt `i+k` fails
with a non-transient message, the loop performs exactly the first `k`
backoff sleeps, makes `k+1` calls, and returns the friendly error string
at once. -/
lemma runAux_fatal_at (lookup : Nat → Attempt) :
    ∀ (k fuel i : Nat) (last : Option String) (mk : String),
      k < fuel →
      (∀ j, j < k → ∃ mj, lookup (i + j) = .err mj ∧ isTransient mj = true) →
      lookup (i + k) = .err mk → isTransient mk = false →
      runAux lookup i fuel last = ⟨errReturn mk, sleepsFor i k, k + 1⟩ := by
  intro k
  induction k with
  | zero =>
    intro fuel i last mk hk hpre hfail hnt
    rw [Nat.add_zero] at hfail
    rw [runAux_fatal hfail hnt (by omega) last]
    simp [sleepsFor]
  | succ k ih =>
    intro fuel i last mk hk hpre hfail hnt
    obtain ⟨m0, hm0, ht0⟩ := hpre 0 (by omega)
    rw [Nat.add_zero] at hm0
    rw [runAux_transient hm0 ht0 (by omega) last]
    have hrest : runAux lookup (i + 1) (fuel - 1) (some m0) =
        ⟨errReturn mk, sleepsFor (i + 1) k, k + 1⟩ := by
      refine ih (fuel - 1) (i + 1) (some m0) mk (by omega) ?_ ?_ hnt
      · intro j hj
        obtain ⟨mj, hmj, htj⟩ := hpre (j + 1) (by omega)
        exact ⟨mj, by rw [show i + 1 + j = i + (j + 1) by omega]; exact hmj, htj⟩
      · rw [show i + 1 + k = i + (k + 1) by omega]; exact hfail
    rw [hrest, sleepsFor_succ]

/-! Helper lemmas for the aggregation block. -/

lemma keepPart_iff (s : String) :
    keepPart s = true ↔ s ≠ "" ∧ strContains (strLower s) "failed" = false := by
  unfold keepPart
  rw [Bool.and_eq_true, Bool.not_eq_true', Bool.not_eq_true']
  constructor
  · rintro ⟨h1, h2⟩
    refine ⟨?_, h2⟩
    intro he
    rw [he] at h1
    exact absurd h1 (by decide)
  · rintro ⟨h1, h2⟩
    refine ⟨?_, h2⟩
    cases hb : s.isEmpty
    · rfl
    · exact absurd ((String.isEmpty_iff s).mp (by simp [hb])) h1

lemma wiki_tag_ne_arxiv_tag (s t : String) :
    "WIKIPEDIA RESULT:\n" ++ s ≠ "ARXIV RESULT:\n" ++ t := by
  intro h
  have h2 := congrArg String.data h
  rw [String.data_append, String.data_append,
      show ("WIKIPEDIA RESULT:\n").data = 'W' :: ("IKIPEDIA RESULT:\n").data from rfl,
      show ("ARXIV RESULT:\n").data = 'A' :: ("RXIV RESULT:\n").data from rfl] at h2
  simp at h2

lemma wiki_tag_ne_web_tag (s t : String) :
    "WIKIPEDIA RESULT:\n" ++ s ≠ "WEB RESULT:\n" ++ t := by
  intro h
  have h2 := congrArg String.data h
  rw [String.data_append, String.data_append,
      show ("WIKIPEDIA RESULT:\n").data = 'W' :: 'I' :: ("KIPEDIA RESULT:\n").data from rfl,
      show ("WEB RESULT:\n").data = 'W' :: 'E' :: ("B RESULT:\n").data from rfl] at h2
  simp at h2

lemma arxiv_tag_ne_web_tag (s t : String) :
    "ARXIV RESULT:\n" ++ s ≠ "WEB RESULT:\n" ++ t := by
  intro h
  have h2 := congrArg String.data h
  rw [String.data_append, String.data_append,
      show ("ARXIV RESULT:\n").data = 'A' :: ("RXIV RESULT:\n").data from rfl,
      show ("WEB RESULT:\n").data = 'W' :: ("EB RESULT:\n").data from rfl] at h2
  simp at h2

lemma arxiv_tag_ne_wiki_tag (s t : String) :
    "ARXIV RESULT:\n" ++ s ≠ "WIKIPEDIA RESULT:\n" ++ t :=
  (wiki_tag_ne_arxiv_tag t s).symm

lemma web_tag_ne_wiki_tag (s t : String) :
    "WEB RESULT:\n" ++ s ≠ "WIKIPEDIA RESULT:\n" ++ t :=
  (wiki_tag_ne_web_tag t s).symm

lemma web_tag_ne_arxiv_tag (s t : String) :
    "WEB RESULT:\n" ++ s ≠ "ARXIV RESULT:\n" ++ t :=
  (arxiv_tag_ne_web_tag t s).symm

/-! Claim theorems. -/

/-- C1, counterexample: the claim asserts that no sleep is performed
after the final attempt, i.e. three sleeps (`i` in `0..attempts-2`) when
every attempt fails transiently; the code in fact also sleeps
`base_wait * 2^3` after the final failed attempt, performing four sleeps. -/
theorem sleep_after_final_attempt_counterexample :
    ¬ ((SafeRun (fun _ _ => Attempt.err "rate limit exceeded") "q").sleeps =
        [base_wait * 2 ^ 0, base_wait * 2 ^ 1, base_wait * 2 ^ 2]) := by
  rw [SafeRun_allTransient _ _ (fun _ => "rate limit exceeded")
    (fun _ _ => ⟨rfl, show isTransient "rate limit exceeded" = true by decide⟩)]
  intro hc
  have hlen := congrArg List.length hc
  simp at hlen

/-- C1, amended: when the wrapped lookup fails with a transient-marked
message on every attempt, the wrapper makes exactly `attempts` (= 4)
attempts, sleeps `base_wait * 2^i` after EVERY failed attempt `i` for `i`
in `0..attempts-1` — so also once after the final attempt — and returns
an exhaustion string containing the final error's text. -/
theorem transient_exhaustion_trace (superRun : String → Nat → Attempt) (q : String)
    (m : Nat → String)
    (h : ∀ i, i < attempts → superRun q i = .err (m i) ∧ isTransient (m i) = true) :
    (SafeRun superRun q).calls = attempts ∧
    (SafeRun superRun q).sleeps =
      (List.range attempts).map (fun i => base_wait * 2 ^ i) ∧
    (SafeRun superRun q).result = exhaustReturn (some (m 3)) ∧
    strContains (SafeRun superRun q).result (m 3) = true := by
  rw [SafeRun_allTransient superRun q m h]
  refine ⟨rfl, ?_, rfl, ?_⟩
  · show _ = (List.range 4).map _
    rw [List.range_succ, List.range_succ, List.range_succ, List.range_succ, List.range_zero]
    simp
  · show strContains ("❌ DuckDuckGo unavailable after retries. Last error: " ++ m 3)
        (m 3) = true
    exact strContains_append_suffix _ _

/-- Witness for `transient_exhaustion_trace` (Scenario A with the fixed
budget of four attempts). -/
theorem transient_exhaustion_trace_witness :
    (∀ i, i < attempts →
        (fun (_ : String) (_ : Nat) => Attempt.err "rate limit exceeded") "q" i =
          Attempt.err "rate limit exceeded" ∧
        isTransient "rate limit exceeded" = true) ∧
    ((SafeRun (fun _ _ => Attempt.err "rate limit exceeded") "q").calls = attempts ∧
     (SafeRun (fun _ _ => Attempt.err "rate limit exceeded") "q").sleeps =
       (List.range attempts).map (fun i => base_wait * 2 ^ i) ∧
     (SafeRun (fun _ _ => Attempt.err "rate limit exceeded") "q").result =
       exhaustReturn (some "rate limit exceeded") ∧
     strContains (SafeRun (fun _ _ => Attempt.err "rate limit exceeded") "q").result
       "rate limit exceeded" = true) :=
  ⟨fun _ _ => ⟨rfl, by decide⟩,
   transient_exhaustion_trace _ "q" (fun _ => "rate limit exceeded")
     (fun _ _ => ⟨rfl, show isTransient "rate limit exceeded" = true by decide⟩)⟩

/-- C2: for every query and every behaviour of the wrapped lookup the
wrapper returns a string — one of the three documented return forms: a
payload produced by the lookup, the friendly error message, or the
exhaustion fallback — so no failure escapes its boundary (the embedding
is a total function into `RunTrace`). -/
theorem wrapper_never_raises (superRun : String → Nat → Attempt) (q : String) :
    (∃ j p, superRun q j = .ok p ∧ (SafeRun superRun q).result = p) ∨
    (∃ j m, superRun q j = .err m ∧ (SafeRun superRun q).result = errReturn m) ∨
    (∃ l, (SafeRun superRun q).result = exhaustReturn l) :=
  runAux_result_shape (superRun q) attempts 0 none

/-- C3: a failure raised on the first attempt is classified transient —
and triggers at least a second call — exactly when its message text,
lowercased, contains one of the substrings "rate limit", "ratelimit",
"202"; any other failure is classified non-transient. -/
theorem transient_classification (superRun : String → Nat → Attempt) (q m : String)
    (h : superRun q 0 = .err m) :
    (isTransient m = true ↔ specTransient m) ∧
    (2 ≤ (SafeRun superRun q).calls ↔ specTransient m) := by
  have hiff : isTransient m = true ↔ specTransient m := by
    simp only [isTransient, specTransient, Bool.or_eq_true]
    tauto
  refine ⟨hiff, ?_⟩
  rw [← hiff]
  cases ht : isTransient m
  · simp only [Bool.false_eq_true, iff_false, not_le]
    show (runAux (superRun q) 0 attempts none).calls < 2
    rw [runAux_fatal h ht (by norm_num [attempts]) none]
    norm_num
  · simp only [iff_true]
    show 2 ≤ (runAux (superRun q) 0 attempts none).calls
    rw [runAux_transient h ht (by norm_num [attempts]) none]
    have hpos := runAux_calls_pos (superRun q) (attempts - 1) (0 + 1) (some m)
      (by norm_num [attempts])
    simp only [RunTrace.calls]
    omega

/-- Witness for `transient_classification` on a rate-limit failure. -/
theorem transient_classification_witness :
    (fun (_ : String) (_ : Nat) => Attempt.err "rate limit exceeded") "q" 0 =
        Attempt.err "rate limit exceeded" ∧
    ((isTransient "rate limit exceeded" = true ↔ specTransient "rate limit exceeded") ∧
     (2 ≤ (SafeRun (fun _ _ => Attempt.err "rate limit exceeded") "q").calls ↔
        specTransient "rate limit exceeded")) :=
  ⟨rfl, transient_classification _ "q" _ rfl⟩

/-- C4: if attempts `0..k-1` fail transiently and attempt `k` fails with a
non-transient message, the wrapper stops after that attempt — `k + 1`
calls, none of the remaining attempts consumed — performs no sleep for
that failure (only the `k` earlier backoffs), and returns a failure
string embedding the original error text. -/
theorem nonTransient_stops_immediately (superRun : String → Nat → Attempt) (q : String)
    (k : Nat) (mk : String) (hk : k < attempts)
    (hpre : ∀ j, j < k → ∃ mj, superRun q j = .err mj ∧ isTransient mj = true)
    (hfail : superRun q k = .err mk)
    (hnt : isTransient mk = false) :
    (SafeRun superRun q).calls = k + 1 ∧
    (SafeRun superRun q).sleeps = (List.range k).map (fun j => base_wait * 2 ^ j) ∧
    (SafeRun superRun q).result = errReturn mk ∧
    strContains (SafeRun superRun q).result mk = true := by
  have htrace : SafeRun superRun q = ⟨errReturn mk, sleepsFor 0 k, k + 1⟩ := by
    show runAux (superRun q) 0 attempts none = _
    refine runAux_fatal_at (superRun q) k attempts 0 none mk hk ?_ ?_ hnt
    · intro j hj
      simpa using hpre j hj
    · simpa using hfail
  rw [htrace]
  refine ⟨rfl, ?_, rfl, ?_⟩
  · show sleepsFor 0 k = _
    unfold sleepsFor
    apply List.map_congr_left
    intro j _
    rw [Nat.zero_add]
  · show strContains ("⚠️ DuckDuckGo error: " ++ mk) mk = true
    exact strContains_append_suffix _ _

/-- Witness for `nonTransient_stops_immediately` (Scenario B: a
non-transient failure on the very first attempt). -/
theorem nonTransient_stops_immediately_witness :
    0 < attempts ∧
    ((SafeRun (fun _ _ => Attempt.err "invalid query syntax") "q").calls = 0 + 1 ∧
     (SafeRun (fun _ _ => Attempt.err "invalid query syntax") "q").sleeps =
       (List.range 0).map (fun j => base_wait * 2 ^ j) ∧
     (SafeRun (fun _ _ => Attempt.err "invalid query syntax") "q").result =
       errReturn "invalid query syntax" ∧
     strContains (SafeRun (fun _ _ => Attempt.err "invalid query syntax") "q").result
       "invalid query syntax" = true) :=
  ⟨by norm_num [attempts],
   nonTransient_stops_immediately _ "q" 0 "invalid query syntax" (by norm_num [attempts])
     (fun j hj => absurd hj (Nat.not_lt_zero j)) rfl (by decide)⟩

/-- C5: if the wrapped lookup succeeds on the first attempt, the wrapper
returns that exact payload unmodified, performs no sleep, and makes
exactly one call. -/
theorem first_attempt_success (superRun : String → Nat → Attempt) (q p : String)
    (h : superRun q 0 = .ok p) :
    (SafeRun superRun q).result = p ∧ (SafeRun superRun q).sleeps = [] ∧
      (SafeRun superRun q).calls = 1 := by
  have htrace : SafeRun superRun q = ⟨p, [], 1⟩ := by
    show runAux (superRun q) 0 attempts none = _
    exact runAux_ok h (by norm_num [attempts]) none
  rw [htrace]
  exact ⟨rfl, rfl, rfl⟩

/-- Witness for `first_attempt_success` (Scenario C). -/
theorem first_attempt_success_witness :
    (SafeRun (fun _ _ => Attempt.ok "Paris is the capital of France.") "q").result =
        "Paris is the capital of France." ∧
      (SafeRun (fun _ _ => Attempt.ok "Paris is the capital of France.") "q").sleeps = [] ∧
      (SafeRun (fun _ _ => Attempt.ok "Paris is the capital of France.") "q").calls = 1 :=
  first_attempt_success _ "q" _ rfl

/-- C6, counterexample: after all four attempts fail with "rate limit"
the returned terminal string is exactly
`"❌ DuckDuckGo unavailable after retries. Last error: rate limit"`; it
contains no digit at all — in particular not the attempt count 4 — so it
does not state the number of attempts made. -/
theorem exhaustion_lacks_attempt_count_counterexample :
    (SafeRun (fun _ _ => Attempt.err "rate limit") "q").result =
      "❌ DuckDuckGo unavailable after retries. Last error: rate limit" ∧
    ((SafeRun (fun _ _ => Attempt.err "rate limit") "q").result.data.all
      (fun c => !c.isDigit)) = true ∧
    strContains (SafeRun (fun _ _ => Attempt.err "rate limit") "q").result "4" = false := by
  rw [SafeRun_allTransient _ _ (fun _ => "rate limit")
    (fun _ _ => ⟨rfl, show isTransient "rate limit" = true by decide⟩)]
  exact ⟨rfl, by decide, by decide⟩

/-- C6, amended: on exhaustion of all attempts the terminal failure
string states that retries are exhausted (it contains the phrase
"unavailable after retries") and includes the last observed error's text;
it does not state the number of attempts made. -/
theorem exhaustion_string_contents (superRun : String → Nat → Attempt) (q : String)
    (m : Nat → String)
    (h : ∀ i, i < attempts → superRun q i = .err (m i) ∧ isTransient (m i) = true) :
    (SafeRun superRun q).result = exhaustReturn (some (m 3)) ∧
    strContains (SafeRun superRun q).result "unavailable after retries" = true ∧
    strContains (SafeRun superRun q).result (m 3) = true := by
  rw [SafeRun_allTransient superRun q m h]
  refine ⟨rfl, ?_, ?_⟩
  · show strContains ("❌ DuckDuckGo unavailable after retries. Last error: " ++ m 3)
        "unavailable after retries" = true
    exact strContains_append_of_left _ (by decide)
  · show strContains ("❌ DuckDuckGo unavailable after retries. Last error: " ++ m 3)
        (m 3) = true
    exact strContains_append_suffix _ _

/-- Witness for `exhaustion_string_contents`. -/
theorem exhaustion_string_contents_witness :
    (∀ i, i < attempts →
        (fun (_ : String) (_ : Nat) => Attempt.err "202 Accepted") "q" i =
          Attempt.err "202 Accepted" ∧
        isTransient "202 Accepted" = true) ∧
    ((SafeRun (fun _ _ => Attempt.err "202 Accepted") "q").result =
        exhaustReturn (some "202 Accepted") ∧
     strContains (SafeRun (fun _ _ => Attempt.err "202 Accepted") "q").result
       "unavailable after retries" = true ∧
     strContains (SafeRun (fun _ _ => Attempt.err "202 Accepted") "q").result
       "202 Accepted" = true) :=
  ⟨fun _ _ => ⟨rfl, by decide⟩,
   exhaustion_string_contents _ "q" (fun _ => "202 Accepted")
     (fun _ _ => ⟨rfl, show isTransient "202 Accepted" = true by decide⟩)⟩

/-- C7: when every attempt fails with a transient-classified error, the
sum of all backoff sleeps performed within the invocation equals
`base_wait * (2 ^ attempts - 1)` seconds (here `3/2 * 15 = 22.5`). -/
theorem total_backoff_sum (superRun : String → Nat → Attempt) (q : String)
    (m : Nat → String)
    (h : ∀ i, i < attempts → superRun q i = .err (m i) ∧ isTransient (m i) = true) :
    (SafeRun superRun q).sleeps.sum = base_wait * (2 ^ attempts - 1) := by
  rw [SafeRun_allTransient superRun q m h]
  show base_wait * 2 ^ 0 + (base_wait * 2 ^ 1 + (base_wait * 2 ^ 2 +
      (base_wait * 2 ^ 3 + 0))) = base_wait * (2 ^ attempts - 1)
  norm_num [attempts]
  ring

/-- Witness for `total_backoff_sum`. -/
theorem total_backoff_sum_witness :
    (∀ i, i < attempts →
        (fun (_ : String) (_ : Nat) => Attempt.err "ratelimit") "q" i =
          Attempt.err "ratelimit" ∧
        isTransient "ratelimit" = true) ∧
    (SafeRun (fun _ _ => Attempt.err "ratelimit") "q").sleeps.sum =
      base_wait * (2 ^ attempts - 1) :=
  ⟨fun _ _ => ⟨rfl, by decide⟩,
   total_backoff_sum _ "q" (fun _ => "ratelimit")
     (fun _ _ => ⟨rfl, show isTransient "ratelimit" = true by decide⟩)⟩

/-- C8: with a pure, always-succeeding lookup, two successive invocations
of the wrapper on the same query produce identical traces, and each
returns the lookup's payload — no state is carried across invocations. -/
theorem idempotent_on_pure_success (f : String → String) (q : String) :
    (SafeRunTwice (fun q2 _ => Attempt.ok (f q2)) q).1 =
      (SafeRunTwice (fun q2 _ => Attempt.ok (f q2)) q).2 ∧
    (SafeRunTwice (fun q2 _ => Attempt.ok (f q2)) q).1.result = f q := by
  constructor
  · rfl
  · show (runAux (fun _ => Attempt.ok (f q)) 0 attempts none).result = f q
    rw [runAux_ok rfl (by norm_num [attempts]) none]

/-- C9: a tool output is included in the aggregation exactly when it is
non-empty and its lowercased text does not contain "failed" — so a
successful payload that merely mentions "failed" is silently excluded —
and when all three outputs are excluded the aggregated text is exactly
the fallback sentence. -/
theorem aggregation_policy (w a x : String) :
    (("WIKIPEDIA RESULT:\n" ++ w.trim) ∈ partsOf w a x ↔
      (w ≠ "" ∧ strContains (strLower w) "failed" = false)) ∧
    (("ARXIV RESULT:\n" ++ a.trim) ∈ partsOf w a x ↔
      (a ≠ "" ∧ strContains (strLower a) "failed" = false)) ∧
    (("WEB RESULT:\n" ++ x.trim) ∈ partsOf w a x ↔
      (x ≠ "" ∧ strContains (strLower x) "failed" = false)) ∧
    (¬(w ≠ "" ∧ strContains (strLower w) "failed" = false) →
     ¬(a ≠ "" ∧ strContains (strLower a) "failed" = false) →
     ¬(x ≠ "" ∧ strContains (strLower x) "failed" = false) →
      aggregatedOf w a x =
        "No external results available (all tools failed or returned no results).") := by
  simp only [← keepPart_iff]
  by_cases hw : keepPart w = true <;> by_cases ha : keepPart a = true <;>
    by_cases hx : keepPart x = true <;>
    simp [partsOf, aggregatedOf, hw, ha, hx,
      wiki_tag_ne_arxiv_tag, wiki_tag_ne_web_tag, arxiv_tag_ne_web_tag,
      arxiv_tag_ne_wiki_tag, web_tag_ne_wiki_tag, web_tag_ne_arxiv_tag]

/-- Witness for `aggregation_policy`: a non-empty wiki payload that
merely mentions "failed", an empty arXiv output, and an
uppercase-"FAILED" web output are all excluded, so the aggregation is the
fallback sentence. -/
theorem aggregation_policy_witness :
    aggregatedOf "All tools failed" "" "FAILED again" =
      "No external results available (all tools failed or returned no results)." :=
  (aggregation_policy "All tools failed" "" "FAILED again").2.2.2
    (by decide) (by decide) (by decide)

/-- C10: every invocation calls the underlying lookup at least once and
at most four times, and the attempt budget and base wait are the fixed
constants `4` and `1.5` (= `3/2`) — they are not parameters of the call. -/
theorem call_count_bounds (superRun : String → Nat → Attempt) (q : String) :
    1 ≤ (SafeRun superRun q).calls ∧ (SafeRun superRun q).calls ≤ 4 ∧
      attempts = 4 ∧ base_wait = 3 / 2 :=
  ⟨runAux_calls_pos (superRun q) attempts 0 none (by norm_num [attempts]),
   runAux_calls_le (superRun q) attempts 0 none,
   rfl, rfl⟩

end App
